import Mathlib

set_option maxHeartbeats 1000000

namespace AlphaDuel

/-- Type tag of an event / transcript message, mirroring the `type` discriminant
of the frontend's AgentMessage union; `other` stands for any unrecognized type
string that JSON parsing may produce at runtime. -/
inductive MType where
  | bull | bear | referee | system | hedera | error | status | done
  | bull_token | bear_token | referee_token
  | bull_complete | bear_complete | referee_complete
  | other (s : String)
deriving DecidableEq, Repr

/-- Ledger transaction reference carried by hedera events (fields are only
copied around, never computed with, so amounts are modelled as integers). -/
structure HederaTransaction where
  tx_id : String
  tx_type : String
  status : String
  hashscan_url : String
  amount : Option Int := none
  simulation : Option Bool := none
deriving DecidableEq, Repr

/-- The AgentMessage record: both the decoded SSE events and the transcript
entries stored in the message list use this shape, exactly as in the source
(numeric fields modelled as integers; they are only copied, never computed
with). -/
structure AgentMessage where
  type : MType
  content : Option String := none
  token : Option String := none
  confidence : Option Int := none
  key_points : Option (List String) := none
  round : Option Nat := none
  winner : Option String := none
  confidence_score : Option Int := none
  wager_amount : Option Int := none
  key_factors : Option (List String) := none
  hcs_tx : Option HederaTransaction := none
  wager_tx : Option HederaTransaction := none
  status : Option String := none
deriving DecidableEq, Repr

/-- Session status values of DebateState.status. -/
inductive Status where
  | idle | loading | debating | completed | error
deriving DecidableEq, Repr

/-- The three logical speakers. -/
inductive Speaker where
  | bull | bear | referee
deriving DecidableEq, Repr

/-- The published DebateState of the hook. -/
structure DebateState where
  status : Status
  messages : List AgentMessage
  symbol : String
  query : String
  winner : Option String := none
  confidence_score : Option Int := none
  wager_amount : Option Int := none
  hcs_tx : Option HederaTransaction := none
  wager_tx : Option HederaTransaction := none
deriving DecidableEq, Repr

/-- The mutable StreamingState ref: per-speaker accumulators and the shared
round counter (currentAgent inside this ref is written only at reset in the
source and never read; kept for faithfulness). -/
structure StreamingState where
  bullContent : String
  bearContent : String
  refereeContent : String
  currentAgent : Option Speaker
  currentRound : Nat
deriving DecidableEq, Repr

/-- Everything the hook owns for one session: the published DebateState, the
separate currentAgent state, and the streaming ref. -/
structure SessionState where
  state : DebateState
  currentAgent : Option Speaker
  streaming : StreamingState
deriving DecidableEq, Repr

/-- JavaScript a || b for an optional string: the fallback is used when the
field is absent or is the empty string (both falsy). -/
def jsOrStr : Option String → String → String
  | none, d => d
  | some s, d => if s = "" then d else s

/-- JavaScript a || b for an optional number used as a round: the fallback is
used when the field is absent or is 0 (both falsy). -/
def jsOrNat : Option Nat → Nat → Nat
  | none, d => d
  | some n, d => if n = 0 then d else n

/-- JS truthiness of an optional numeric field (confidence): false exactly
when the field is absent or 0. -/
def numTruthy : Option Int → Bool
  | none => false
  | some n => decide (n ≠ 0)

/-- JS truthiness of an optional string field (winner): false exactly when
the field is absent or empty. -/
def strTruthy : Option String → Bool
  | none => false
  | some s => decide (s ≠ "")

/-- The findIndex / in-place set / push pattern every token and complete
branch uses on the message list: replace the first message satisfying p via
f, or append newMsg at the end when no message satisfies p. -/
def upsert (p : AgentMessage → Bool) (f : AgentMessage → AgentMessage)
    (newMsg : AgentMessage) : List AgentMessage → List AgentMessage
  | [] => [newMsg]
  | m :: ms => if p m then f m :: ms else m :: upsert p f newMsg ms

/-- The open-message findIndex predicate for bull and bear: matching type,
matching round, and a falsy confidence field (m.confidence absent or 0). -/
def openDebater (t : MType) (r : Nat) (m : AgentMessage) : Bool :=
  decide (m.type = t) && decide (m.round = some r) && !numTruthy m.confidence

/-- The open-message findIndex predicate for the referee: type referee and a
falsy winner field; the source does not consult the round here. -/
def openReferee (m : AgentMessage) : Bool :=
  decide (m.type = MType.referee) && !strTruthy m.winner

/-- The message pushed by a bull/bear token branch when no open message was
found: just type, accumulated content and round. -/
def tokenMsgDebater (t : MType) (c : String) (r : Nat) : AgentMessage :=
  { type := t, content := some c, round := some r }

/-- The message pushed by the referee token branch when no open message was
found: type and accumulated content only, no round field. -/
def tokenMsgReferee (c : String) : AgentMessage :=
  { type := MType.referee, content := some c }

/-- The completeMessage record built by the bull/bear complete branches. -/
def completeMsgDebater (t : MType) (e : AgentMessage) (c : String) (r : Nat) :
    AgentMessage :=
  { type := t, content := some c, confidence := e.confidence,
    key_points := e.key_points, round := some r }

/-- The completeMessage record built by the referee complete branch. -/
def completeMsgReferee (e : AgentMessage) (c : String) : AgentMessage :=
  { type := MType.referee, content := some c, winner := e.winner,
    confidence_score := e.confidence_score, wager_amount := e.wager_amount,
    key_factors := e.key_factors }

/-- One reducer step: the body of the SSE loop in startDebate applied to a
single successfully parsed event, covering every if/else-if branch of the
source in order. -/
def applyEvent (ss : SessionState) (data : AgentMessage) : SessionState :=
  match data.type with
  | MType.bull_token =>
      let bullContent := ss.streaming.bullContent ++ jsOrStr data.token ""
      let r := jsOrNat data.round ss.streaming.currentRound
      { ss with
        streaming := { ss.streaming with bullContent := bullContent },
        currentAgent := some Speaker.bull,
        state := { ss.state with
          messages := upsert (openDebater MType.bull r)
            (fun m => { m with content := some bullContent })
            (tokenMsgDebater MType.bull bullContent r) ss.state.messages } }
  | MType.bear_token =>
      let bearContent := ss.streaming.bearContent ++ jsOrStr data.token ""
      let r := jsOrNat data.round ss.streaming.currentRound
      { ss with
        streaming := { ss.streaming with bearContent := bearContent },
        currentAgent := some Speaker.bear,
        state := { ss.state with
          messages := upsert (openDebater MType.bear r)
            (fun m => { m with content := some bearContent })
            (tokenMsgDebater MType.bear bearContent r) ss.state.messages } }
  | MType.referee_token =>
      let refereeContent := ss.streaming.refereeContent ++ jsOrStr data.token ""
      { ss with
        streaming := { ss.streaming with refereeContent := refereeContent },
        currentAgent := some Speaker.referee,
        state := { ss.state with
          messages := upsert openReferee
            (fun m => { m with content := some refereeContent })
            (tokenMsgReferee refereeContent) ss.state.messages } }
  | MType.bull_complete =>
      let finalContent := jsOrStr data.content ss.streaming.bullContent
      let r := jsOrNat data.round ss.streaming.currentRound
      { ss with
        streaming := { ss.streaming with bullContent := "" },
        currentAgent := none,
        state := { ss.state with
          messages := upsert (openDebater MType.bull r)
            (fun _ => completeMsgDebater MType.bull data finalContent r)
            (completeMsgDebater MType.bull data finalContent r)
            ss.state.messages } }
  | MType.bear_complete =>
      let finalContent := jsOrStr data.content ss.streaming.bearContent
      let r := jsOrNat data.round ss.streaming.currentRound
      { ss with
        streaming := { ss.streaming with
          bearContent := "",
          currentRound := ss.streaming.currentRound + 1 },
        currentAgent := none,
        state := { ss.state with
          messages := upsert (openDebater MType.bear r)
            (fun _ => completeMsgDebater MType.bear data finalContent r)
            (completeMsgDebater MType.bear data finalContent r)
            ss.state.messages } }
  | MType.referee_complete =>
      let finalContent := jsOrStr data.content ss.streaming.refereeContent
      { ss with
        streaming := { ss.streaming with refereeContent := "" },
        currentAgent := none,
        state := { ss.state with
          messages := upsert openReferee
            (fun _ => completeMsgReferee data finalContent)
            (completeMsgReferee data finalContent)
            ss.state.messages,
          winner := data.winner,
          confidence_score := data.confidence_score,
          wager_amount := data.wager_amount } }
  | MType.done =>
      { ss with
        currentAgent := none,
        state := { ss.state with status := Status.completed } }
  | MType.error =>
      { ss with state := { ss.state with
          status := Status.error,
          messages := ss.state.messages ++ [data] } }
  | MType.hedera =>
      { ss with state := { ss.state with
          messages := ss.state.messages ++ [data],
          hcs_tx := data.hcs_tx, wager_tx := data.wager_tx } }
  | MType.system =>
      { ss with state := { ss.state with
          messages := ss.state.messages ++ [data] } }
  | MType.status =>
      if data.status = some "bull_analyzing" then
        { ss with currentAgent := some Speaker.bull }
      else if data.status = some "bear_analyzing" then
        { ss with currentAgent := some Speaker.bear }
      else if data.status = some "referee_evaluating" then
        { ss with currentAgent := some Speaker.referee }
      else ss
  | _ => ss

/-- The freshly reset streaming ref. -/
def initStreaming : StreamingState :=
  { bullContent := "", bearContent := "", refereeContent := "",
    currentAgent := none, currentRound := 1 }

/-- The session right after start: loading status, empty transcript, reset
streaming ref and cleared currentAgent. -/
def startSession (query symbol : String) : SessionState :=
  { state := { status := Status.loading,
               messages := [],
               symbol := symbol,
               query := query },
    currentAgent := none,
    streaming := initStreaming }

/-- The status update the source performs right after obtaining the stream
reader and before reading any chunk. -/
def setDebating (ss : SessionState) : SessionState :=
  { ss with state := { ss.state with status := Status.debating } }

/-- The unconditional status update and currentAgent clear performed after
the read loop ends. -/
def finishRun (ss : SessionState) : SessionState :=
  { ss with
    currentAgent := none,
    state := { ss.state with status := Status.completed } }

/-- The non-throwing controller path of startDebate: start, obtain the
stream, switch to debating, fold every decoded event through the reducer,
then finish. -/
def controllerRun (q sym : String) (events : List AgentMessage) :
    SessionState :=
  finishRun (events.foldl applyEvent (setDebating (startSession q sym)))

/-- The sequence of status values published during a non-throwing run, in
order: the loading state set by start, the debating state set before the read
loop, one entry per applied event, and the final completed state. -/
def statusTrace (q sym : String) (events : List AgentMessage) : List Status :=
  (startSession q sym).state.status ::
    ((events.scanl applyEvent (setDebating (startSession q sym))).map
      (fun s => s.state.status)) ++ [Status.completed]

/-- A message carries a given type and round (open or finalized alike). -/
def keyPred (t : MType) (r : Nat) (m : AgentMessage) : Bool :=
  decide (m.type = t) && decide (m.round = some r)

/-- Number of transcript messages carrying a given type and round. -/
def keyCount (t : MType) (r : Nat) (msgs : List AgentMessage) : Nat :=
  msgs.countP (keyPred t r)

/-- A message carries a truthy finality field: nonzero confidence for
bull/bear messages, nonempty winner for referee messages. -/
def finalizedB (m : AgentMessage) : Bool :=
  match m.type with
  | MType.bull => numTruthy m.confidence
  | MType.bear => numTruthy m.confidence
  | MType.referee => strTruthy m.winner
  | _ => false

/-- The token event a run for a fixed speaker and round delivers. -/
def mkToken (sp : Speaker) (r : Nat) (t : String) : AgentMessage :=
  match sp with
  | Speaker.bull => { type := MType.bull_token, token := some t, round := some r }
  | Speaker.bear => { type := MType.bear_token, token := some t, round := some r }
  | Speaker.referee => { type := MType.referee_token, token := some t, round := some r }

/-- The open-message predicate the source uses for a given speaker. -/
def openFor (sp : Speaker) (r : Nat) : AgentMessage → Bool :=
  match sp with
  | Speaker.bull => openDebater MType.bull r
  | Speaker.bear => openDebater MType.bear r
  | Speaker.referee => openReferee

/-- The open message a token run for a given speaker keeps updating. -/
def openMsg (sp : Speaker) (r : Nat) (c : String) : AgentMessage :=
  match sp with
  | Speaker.bull => tokenMsgDebater MType.bull c r
  | Speaker.bear => tokenMsgDebater MType.bear c r
  | Speaker.referee => tokenMsgReferee c

/-- The streaming accumulator of a given speaker. -/
def bufferOf (ss : SessionState) (sp : Speaker) : String :=
  match sp with
  | Speaker.bull => ss.streaming.bullContent
  | Speaker.bear => ss.streaming.bearContent
  | Speaker.referee => ss.streaming.refereeContent

/-- Folding a run of token events for one speaker and round through the
reducer. -/
def tokenRun (sp : Speaker) (r : Nat) (ts : List String) (ss : SessionState) :
    SessionState :=
  (ts.map (mkToken sp r)).foldl applyEvent ss

/-- With an empty-string default, JS a || b on an optional string present as
some t yields t itself. -/
theorem jsOrStr_some_empty (t : String) : jsOrStr (some t) "" = t := by
  by_cases h : t = "" <;> simp [jsOrStr, h]

/-- JS a || b on a present nonzero round yields that round. -/
theorem jsOrNat_some_ne (r d : Nat) (h : r ≠ 0) : jsOrNat (some r) d = r := by
  simp [jsOrNat, h]

/-- findIndex misses: the upsert appends the new message at the end. -/
theorem upsert_not_found (p : AgentMessage → Bool) (f : AgentMessage → AgentMessage)
    (newMsg : AgentMessage) (ms : List AgentMessage) (h : ms.any p = false) :
    upsert p f newMsg ms = ms ++ [newMsg] := by
  induction ms with
  | nil => rfl
  | cons m ms ih =>
    cases hpm : p m with
    | true => simp [List.any_cons, hpm] at h
    | false =>
      have h2 : ms.any p = false := by simpa [List.any_cons, hpm] using h
      simp [upsert, hpm, ih h2]

/-- findIndex hits the final element: the upsert rewrites it in place and
leaves everything before it untouched. -/
theorem upsert_append_found (p : AgentMessage → Bool) (f : AgentMessage → AgentMessage)
    (newMsg o : AgentMessage) (ms : List AgentMessage)
    (hms : ms.any p = false) (ho : p o = true) :
    upsert p f newMsg (ms ++ [o]) = ms ++ [f o] := by
  induction ms with
  | nil => simp [upsert, ho]
  | cons m ms ih =>
    cases hpm : p m with
    | true => simp [List.any_cons, hpm] at hms
    | false =>
      have h2 : ms.any p = false := by simpa [List.any_cons, hpm] using hms
      simp [upsert, hpm, ih h2]

/-- A list element the findIndex predicate rejects keeps its position and its
value across an upsert. -/
theorem upsert_getElem? (p : AgentMessage → Bool) (f : AgentMessage → AgentMessage)
    (newMsg : AgentMessage) (ms : List AgentMessage) (i : Nat) (m : AgentMessage)
    (hm : ms[i]? = some m) (hp : p m = false) :
    (upsert p f newMsg ms)[i]? = some m := by
  induction ms generalizing i with
  | nil => simp at hm
  | cons a ms ih =>
    cases hpa : p a with
    | true =>
      cases i with
      | zero =>
        rw [List.getElem?_cons_zero] at hm
        have ham : a = m := by simpa using hm
        rw [ham] at hpa
        rw [hpa] at hp
        cases hp
      | succ j =>
        rw [upsert, if_pos (by simp [hpa])]
        rw [List.getElem?_cons_succ] at hm ⊢
        exact hm
    | false =>
      cases i with
      | zero =>
        rw [upsert, if_neg (by simp [hpa])]
        rw [List.getElem?_cons_zero] at hm ⊢
        exact hm
      | succ j =>
        rw [upsert, if_neg (by simp [hpa])]
        rw [List.getElem?_cons_succ] at hm ⊢
        exact ih j hm

/-- When replacement and appended message coincide, that message is in the
upsert result either way. -/
theorem mem_upsert_const (p : AgentMessage → Bool) (cm : AgentMessage)
    (ms : List AgentMessage) : cm ∈ upsert p (fun _ => cm) cm ms := by
  induction ms with
  | nil => simp [upsert]
  | cons m ms ih =>
    cases hpm : p m with
    | true =>
      rw [upsert, if_pos (by simp [hpm])]
      exact List.mem_cons_self _ _
    | false =>
      rw [upsert, if_neg (by simp [hpm])]
      exact List.mem_cons_of_mem _ ih

/-- Counting q-messages across an upsert whose replacement and appended
message coincide: the count is unchanged on a hit and grows by one on a
miss, provided p-matches and the new message all satisfy q. -/
theorem upsert_countP (p q : AgentMessage → Bool) (cm : AgentMessage)
    (ms : List AgentMessage)
    (hpq : ∀ m, p m = true → q m = true) (hcm : q cm = true) :
    (upsert p (fun _ => cm) cm ms).countP q
      = ms.countP q + (if ms.any p = true then 0 else 1) := by
  induction ms with
  | nil => simp [upsert, hcm]
  | cons m ms ih =>
    cases hpm : p m with
    | true =>
      rw [upsert, if_pos (by simp [hpm])]
      simp [List.countP_cons, List.any_cons, hpm, hcm, hpq m hpm]
    | false =>
      rw [upsert, if_neg (by simp [hpm])]
      rw [List.countP_cons, List.countP_cons, ih, List.any_cons, hpm]
      simp only [Bool.false_or]
      omega

/-- An element present in the left part of an append keeps its position. -/
theorem getElem?_append_of_some {l₁ l₂ : List AgentMessage} {i : Nat}
    {a : AgentMessage} (h : l₁[i]? = some a) : (l₁ ++ l₂)[i]? = some a := by
  obtain ⟨hlt, -⟩ := List.getElem?_eq_some_iff.mp h
  rw [List.getElem?_append_left hlt]
  exact h

/-- A message with a truthy finality field never satisfies the bull/bear
open-message predicate. -/
theorem finalized_not_openDebater (t : MType) (r : Nat) (m : AgentMessage)
    (ht : t = MType.bull ∨ t = MType.bear) (h : finalizedB m = true) :
    openDebater t r m = false := by
  rcases ht with ht | ht <;> subst ht <;>
    cases hmt : m.type <;>
      simp only [finalizedB, hmt] at h <;>
      first
        | exact Bool.noConfusion h
        | simp [openDebater, hmt, h]

/-- A message with a truthy finality field never satisfies the referee
open-message predicate. -/
theorem finalized_not_openReferee (m : AgentMessage) (h : finalizedB m = true) :
    openReferee m = false := by
  cases hmt : m.type <;>
    simp only [finalizedB, hmt] at h <;>
    first
      | exact Bool.noConfusion h
      | simp [openReferee, hmt, h]

/-- Unfolding of the bull_token branch. -/
theorem applyEvent_bull_token (ss : SessionState) (e : AgentMessage)
    (h : e.type = MType.bull_token) :
    applyEvent ss e = { ss with
      streaming := { ss.streaming with
        bullContent := ss.streaming.bullContent ++ jsOrStr e.token "" },
      currentAgent := some Speaker.bull,
      state := { ss.state with
        messages := upsert
          (openDebater MType.bull (jsOrNat e.round ss.streaming.currentRound))
          (fun m =>
            { m with content := some (ss.streaming.bullContent ++ jsOrStr e.token "") })
          (tokenMsgDebater MType.bull
            (ss.streaming.bullContent ++ jsOrStr e.token "")
            (jsOrNat e.round ss.streaming.currentRound))
          ss.state.messages } } := by
  obtain ⟨ty, c, tok, cf, kp, rd, w, cs, wa, kf, hx, wx, st⟩ := e
  have h' : ty = MType.bull_token := h
  subst h'
  rfl

/-- Unfolding of the bear_token branch. -/
theorem applyEvent_bear_token (ss : SessionState) (e : AgentMessage)
    (h : e.type = MType.bear_token) :
    applyEvent ss e = { ss with
      streaming := { ss.streaming with
        bearContent := ss.streaming.bearContent ++ jsOrStr e.token "" },
      currentAgent := some Speaker.bear,
      state := { ss.state with
        messages := upsert
          (openDebater MType.bear (jsOrNat e.round ss.streaming.currentRound))
          (fun m =>
            { m with content := some (ss.streaming.bearContent ++ jsOrStr e.token "") })
          (tokenMsgDebater MType.bear
            (ss.streaming.bearContent ++ jsOrStr e.token "")
            (jsOrNat e.round ss.streaming.currentRound))
          ss.state.messages } } := by
  obtain ⟨ty, c, tok, cf, kp, rd, w, cs, wa, kf, hx, wx, st⟩ := e
  have h' : ty = MType.bear_token := h
  subst h'
  rfl

/-- Unfolding of the referee_token branch: no round is consulted or stored. -/
theorem applyEvent_referee_token (ss : SessionState) (e : AgentMessage)
    (h : e.type = MType.referee_token) :
    applyEvent ss e = { ss with
      streaming := { ss.streaming with
        refereeContent := ss.streaming.refereeContent ++ jsOrStr e.token "" },
      currentAgent := some Speaker.referee,
      state := { ss.state with
        messages := upsert openReferee
          (fun m =>
            { m with content := some (ss.streaming.refereeContent ++ jsOrStr e.token "") })
          (tokenMsgReferee (ss.streaming.refereeContent ++ jsOrStr e.token ""))
          ss.state.messages } } := by
  obtain ⟨ty, c, tok, cf, kp, rd, w, cs, wa, kf, hx, wx, st⟩ := e
  have h' : ty = MType.referee_token := h
  subst h'
  rfl

/-- Unfolding of the bull_complete branch. -/
theorem applyEvent_bull_complete (ss : SessionState) (e : AgentMessage)
    (h : e.type = MType.bull_complete) :
    applyEvent ss e = { ss with
      streaming := { ss.streaming with bullContent := "" },
      currentAgent := none,
      state := { ss.state with
        messages := upsert
          (openDebater MType.bull (jsOrNat e.round ss.streaming.currentRound))
          (fun _ => completeMsgDebater MType.bull e
            (jsOrStr e.content ss.streaming.bullContent)
            (jsOrNat e.round ss.streaming.currentRound))
          (completeMsgDebater MType.bull e
            (jsOrStr e.content ss.streaming.bullContent)
            (jsOrNat e.round ss.streaming.currentRound))
          ss.state.messages } } := by
  obtain ⟨ty, c, tok, cf, kp, rd, w, cs, wa, kf, hx, wx, st⟩ := e
  have h' : ty = MType.bull_complete := h
  subst h'
  rfl

/-- Unfolding of the bear_complete branch: the only branch that advances the
round counter. -/
theorem applyEvent_bear_complete (ss : SessionState) (e : AgentMessage)
    (h : e.type = MType.bear_complete) :
    applyEvent ss e = { ss with
      streaming := { ss.streaming with
        bearContent := "",
        currentRound := ss.streaming.currentRound + 1 },
      currentAgent := none,
      state := { ss.state with
        messages := upsert
          (openDebater MType.bear (jsOrNat e.round ss.streaming.currentRound))
          (fun _ => completeMsgDebater MType.bear e
            (jsOrStr e.content ss.streaming.bearContent)
            (jsOrNat e.round ss.streaming.currentRound))
          (completeMsgDebater MType.bear e
            (jsOrStr e.content ss.streaming.bearContent)
            (jsOrNat e.round ss.streaming.currentRound))
          ss.state.messages } } := by
  obtain ⟨ty, c, tok, cf, kp, rd, w, cs, wa, kf, hx, wx, st⟩ := e
  have h' : ty = MType.bear_complete := h
  subst h'
  rfl

/-- Unfolding of the referee_complete branch: no round is consulted or
stored, and the summary fields are projected onto the state. -/
theorem applyEvent_referee_complete (ss : SessionState) (e : AgentMessage)
    (h : e.type = MType.referee_complete) :
    applyEvent ss e = { ss with
      streaming := { ss.streaming with refereeContent := "" },
      currentAgent := none,
      state := { ss.state with
        messages := upsert openReferee
          (fun _ => completeMsgReferee e
            (jsOrStr e.content ss.streaming.refereeContent))
          (completeMsgReferee e (jsOrStr e.content ss.streaming.refereeContent))
          ss.state.messages,
        winner := e.winner,
        confidence_score := e.confidence_score,
        wager_amount := e.wager_amount } } := by
  obtain ⟨ty, c, tok, cf, kp, rd, w, cs, wa, kf, hx, wx, st⟩ := e
  have h' : ty = MType.referee_complete := h
  subst h'
  rfl

/-- A message matching the open predicate for bull/bear also matches the
plain type-and-round key. -/
theorem openDebater_key (t : MType) (r : Nat) (m : AgentMessage)
    (h : openDebater t r m = true) : keyPred t r m = true := by
  simp only [openDebater, Bool.and_eq_true, decide_eq_true_eq] at h
  simp only [keyPred, Bool.and_eq_true, decide_eq_true_eq]
  exact h.1

/-- Per-event change of the shared round counter: plus one on bear_complete
and zero on every other event kind. -/
theorem currentRound_step (ss : SessionState) (e : AgentMessage) :
    (applyEvent ss e).streaming.currentRound
      = ss.streaming.currentRound
        + (if e.type = MType.bear_complete then 1 else 0) := by
  obtain ⟨ty, c, tok, cf, kp, rd, w, cs, wa, kf, hx, wx, st⟩ := e
  cases ty <;>
    first
      | rfl
      | (simp only [applyEvent]; split_ifs <;> simp_all)

/-- C9: the shared round counter increases by exactly 1 on a bear complete
event and by 0 on any other event, and is therefore monotonically
non-decreasing along every event sequence. -/
theorem round_increment :
    (∀ (ss : SessionState) (e : AgentMessage),
        (applyEvent ss e).streaming.currentRound
          = ss.streaming.currentRound
            + (if e.type = MType.bear_complete then 1 else 0))
    ∧ (∀ (ss : SessionState) (events : List AgentMessage),
        ss.streaming.currentRound
          ≤ (events.foldl applyEvent ss).streaming.currentRound) := by
  refine ⟨currentRound_step, ?_⟩
  intro ss events
  induction events generalizing ss with
  | nil => simp
  | cons e es ih =>
    calc ss.streaming.currentRound
        ≤ (applyEvent ss e).streaming.currentRound := by
          rw [currentRound_step]; omega
      _ ≤ _ := by simpa [List.foldl_cons] using ih (applyEvent ss e)

/-- C10: an event whose type is not one of the handled kinds, or a status
event whose status string is not one of the three recognized ones, leaves
the whole session state unchanged. -/
theorem unhandled_event_noop (ss : SessionState) (e : AgentMessage)
    (h : e.type = MType.bull ∨ e.type = MType.bear ∨ e.type = MType.referee
        ∨ (∃ s, e.type = MType.other s)
        ∨ (e.type = MType.status ∧ e.status ≠ some "bull_analyzing"
            ∧ e.status ≠ some "bear_analyzing"
            ∧ e.status ≠ some "referee_evaluating")) :
    applyEvent ss e = ss := by
  obtain ⟨ty, c, tok, cf, kp, rd, w, cs, wa, kf, hx, wx, st⟩ := e
  rcases h with h | h | h | ⟨s, h⟩ | ⟨h, h1, h2, h3⟩
  · have h' : ty = MType.bull := h
    subst h'; rfl
  · have h' : ty = MType.bear := h
    subst h'; rfl
  · have h' : ty = MType.referee := h
    subst h'; rfl
  · have h' : ty = MType.other s := h
    subst h'; rfl
  · have h' : ty = MType.status := h
    subst h'
    have h1' : st ≠ some "bull_analyzing" := h1
    have h2' : st ≠ some "bear_analyzing" := h2
    have h3' : st ≠ some "referee_evaluating" := h3
    simp [applyEvent, h1', h2', h3']

/-- An unrecognized event type used by the C10 witness. -/
def noopEvent : AgentMessage := { type := MType.other "weird" }

/-- C10 witness: applying a concrete unknown-type event changes nothing. -/
theorem unhandled_event_noop_witness :
    applyEvent (setDebating (startSession "q" "HBAR")) noopEvent
      = setDebating (startSession "q" "HBAR") :=
  unhandled_event_noop _ _ (Or.inr (Or.inr (Or.inr (Or.inl ⟨"weird", rfl⟩))))

/-- C3 (amended): a reducer step leaves the status unchanged except that an
error event sets it to error and a done event sets it to completed — the
done edge fires even from the error status, and a finished stream always
ends the non-throwing controller run in the completed status. -/
theorem status_transition_edges :
    (∀ (ss : SessionState) (e : AgentMessage),
        (applyEvent ss e).state.status = ss.state.status
        ∨ (e.type = MType.error ∧ (applyEvent ss e).state.status = Status.error)
        ∨ (e.type = MType.done
            ∧ (applyEvent ss e).state.status = Status.completed))
    ∧ (∀ (ss : SessionState) (e : AgentMessage), e.type = MType.done →
        (applyEvent ss e).state.status = Status.completed)
    ∧ (∀ (q sym : String) (events : List AgentMessage),
        (controllerRun q sym events).state.status = Status.completed) := by
  refine ⟨?_, ?_, ?_⟩
  · intro ss e
    obtain ⟨ty, c, tok, cf, kp, rd, w, cs, wa, kf, hx, wx, st⟩ := e
    cases ty
    case error => exact Or.inr (Or.inl ⟨rfl, rfl⟩)
    case done => exact Or.inr (Or.inr ⟨rfl, rfl⟩)
    case status =>
      left
      simp only [applyEvent]
      split_ifs <;> rfl
    all_goals exact Or.inl rfl
  · intro ss e h
    obtain ⟨ty, c, tok, cf, kp, rd, w, cs, wa, kf, hx, wx, st⟩ := e
    have h' : ty = MType.done := h
    subst h'; rfl
  · intro q sym events
    rfl

/-- A concrete error event. -/
def errEvent : AgentMessage := { type := MType.error, content := some "boom" }

/-- A concrete done event. -/
def doneEvent : AgentMessage := { type := MType.done }

/-- C3 counterexample: after an error event the status is error, yet a
subsequent done event sets it to completed — the error state is not
absorbing, contradicting the claimed strict DAG. -/
theorem done_after_error_sets_completed :
    (applyEvent (setDebating (startSession "q" "HBAR")) errEvent).state.status
        = Status.error
    ∧ (applyEvent (applyEvent (setDebating (startSession "q" "HBAR")) errEvent)
        doneEvent).state.status = Status.completed :=
  ⟨rfl, rfl⟩

/-- C3 witness: the done edge at a concrete state. -/
theorem status_transition_edges_witness :
    (applyEvent (setDebating (startSession "w3" "HBAR")) doneEvent).state.status
      = Status.completed :=
  status_transition_edges.2.1 _ doneEvent rfl

/-- C6 (amended): the published status sequence of every non-throwing run
starts loading, debating — the debating transition happens when the stream
body is obtained, before any event is decoded, for eventless streams too. -/
theorem debating_before_first_event :
    ∀ (q sym : String) (events : List AgentMessage),
      (statusTrace q sym events).take 2 = [Status.loading, Status.debating] := by
  intro q sym events
  cases events <;> rfl

/-- C6 counterexample: a stream producing no decodable event still passes
through the debating status. -/
theorem debating_without_events :
    Status.debating ∈ statusTrace "q" "HBAR" [] := by decide

/-- The bull complete event (truthy confidence) used to exhibit the failure
of complete-idempotence. -/
def dupCompleteEvent : AgentMessage :=
  { type := MType.bull_complete, content := some "hi",
    confidence := some 80, round := some 1 }

/-- C1 counterexample: one complete yields one (bull, 1) message, but a
second identical complete appends a second one — the count does not stay
one, because the first complete's truthy confidence makes the open-message
lookup miss. -/
theorem bull_complete_twice_not_idempotent :
    keyCount MType.bull 1
        ((applyEvent (setDebating (startSession "q" "HBAR"))
          dupCompleteEvent).state.messages) = 1
    ∧ keyCount MType.bull 1
        ((applyEvent (applyEvent (setDebating (startSession "q" "HBAR"))
          dupCompleteEvent) dupCompleteEvent).state.messages) = 2 := by
  refine ⟨?_, ?_⟩ <;> decide

/-- Counting effect of a single bull complete event on the (bull, r) key:
unchanged when an open message was found, one more when not. -/
theorem complete_keyCount_bull (ss : SessionState) (e : AgentMessage) (r : Nat)
    (h : e.type = MType.bull_complete) (hrnd : e.round = some r) (hr : r ≠ 0) :
    keyCount MType.bull r (applyEvent ss e).state.messages
      = keyCount MType.bull r ss.state.messages
        + (if ss.state.messages.any (openDebater MType.bull r) = true
            then 0 else 1) := by
  have hr' : jsOrNat e.round ss.streaming.currentRound = r := by
    rw [hrnd]; exact jsOrNat_some_ne r _ hr
  rw [applyEvent_bull_complete ss e h]
  dsimp only
  rw [hr']
  unfold keyCount
  exact upsert_countP _ _ _ _ (fun m hm => openDebater_key _ _ m hm)
    (by simp [completeMsgDebater, keyPred])

/-- Counting effect of a single bear complete event on the (bear, r) key. -/
theorem complete_keyCount_bear (ss : SessionState) (e : AgentMessage) (r : Nat)
    (h : e.type = MType.bear_complete) (hrnd : e.round = some r) (hr : r ≠ 0) :
    keyCount MType.bear r (applyEvent ss e).state.messages
      = keyCount MType.bear r ss.state.messages
        + (if ss.state.messages.any (openDebater MType.bear r) = true
            then 0 else 1) := by
  have hr' : jsOrNat e.round ss.streaming.currentRound = r := by
    rw [hrnd]; exact jsOrNat_some_ne r _ hr
  rw [applyEvent_bear_complete ss e h]
  dsimp only
  rw [hr']
  unfold keyCount
  exact upsert_countP _ _ _ _ (fun m hm => openDebater_key _ _ m hm)
    (by simp [completeMsgDebater, keyPred])

/-- From no key-matching message at all, no open-matching message either. -/
theorem any_open_of_any_key (t : MType) (r : Nat) (ms : List AgentMessage)
    (h : ms.any (keyPred t r) = false) : ms.any (openDebater t r) = false := by
  rw [List.any_eq_false] at h ⊢
  intro m hm hpm
  exact h m hm (openDebater_key _ _ m hpm)

/-- Applying the same bull complete event twice to a state with no
(bull, r) message: the result holds one such message when the event's
confidence is falsy and two when it is truthy. -/
theorem complete_twice_keyCount_bull (ss : SessionState) (e : AgentMessage)
    (r : Nat) (h : e.type = MType.bull_complete) (hrnd : e.round = some r)
    (hr : r ≠ 0)
    (hempty : ss.state.messages.any (keyPred MType.bull r) = false) :
    keyCount MType.bull r (applyEvent (applyEvent ss e) e).state.messages
      = if numTruthy e.confidence = true then 2 else 1 := by
  have hr' : jsOrNat e.round ss.streaming.currentRound = r := by
    rw [hrnd]; exact jsOrNat_some_ne r _ hr
  have hps : ss.state.messages.any (openDebater MType.bull r) = false :=
    any_open_of_any_key _ _ _ hempty
  have hmsgs1 : (applyEvent ss e).state.messages
      = ss.state.messages ++ [completeMsgDebater MType.bull e
          (jsOrStr e.content ss.streaming.bullContent) r] := by
    rw [applyEvent_bull_complete ss e h]
    dsimp only
    rw [hr']
    exact upsert_not_found _ _ _ _ hps
  have hcount1 : keyCount MType.bull r (applyEvent ss e).state.messages = 1 := by
    rw [hmsgs1]
    unfold keyCount
    rw [List.countP_append]
    have h0 : ss.state.messages.countP (keyPred MType.bull r) = 0 := by
      rw [List.countP_eq_zero]
      rw [List.any_eq_false] at hempty
      exact hempty
    rw [h0]
    simp [completeMsgDebater, keyPred]
  have hany1 : (applyEvent ss e).state.messages.any (openDebater MType.bull r)
      = !numTruthy e.confidence := by
    rw [hmsgs1, List.any_append, hps]
    simp [completeMsgDebater, openDebater]
  rw [complete_keyCount_bull (applyEvent ss e) e r h hrnd hr, hcount1, hany1]
  cases hnt : numTruthy e.confidence <;> simp

/-- Applying the same bear complete event twice to a state with no
(bear, r) message. -/
theorem complete_twice_keyCount_bear (ss : SessionState) (e : AgentMessage)
    (r : Nat) (h : e.type = MType.bear_complete) (hrnd : e.round = some r)
    (hr : r ≠ 0)
    (hempty : ss.state.messages.any (keyPred MType.bear r) = false) :
    keyCount MType.bear r (applyEvent (applyEvent ss e) e).state.messages
      = if numTruthy e.confidence = true then 2 else 1 := by
  have hr' : jsOrNat e.round ss.streaming.currentRound = r := by
    rw [hrnd]; exact jsOrNat_some_ne r _ hr
  have hps : ss.state.messages.any (openDebater MType.bear r) = false :=
    any_open_of_any_key _ _ _ hempty
  have hmsgs1 : (applyEvent ss e).state.messages
      = ss.state.messages ++ [completeMsgDebater MType.bear e
          (jsOrStr e.content ss.streaming.bearContent) r] := by
    rw [applyEvent_bear_complete ss e h]
    dsimp only
    rw [hr']
    exact upsert_not_found _ _ _ _ hps
  have hcount1 : keyCount MType.bear r (applyEvent ss e).state.messages = 1 := by
    rw [hmsgs1]
    unfold keyCount
    rw [List.countP_append]
    have h0 : ss.state.messages.countP (keyPred MType.bear r) = 0 := by
      rw [List.countP_eq_zero]
      rw [List.any_eq_false] at hempty
      exact hempty
    rw [h0]
    simp [completeMsgDebater, keyPred]
  have hany1 : (applyEvent ss e).state.messages.any (openDebater MType.bear r)
      = !numTruthy e.confidence := by
    rw [hmsgs1, List.any_append, hps]
    simp [completeMsgDebater, openDebater]
  rw [complete_keyCount_bear (applyEvent ss e) e r h hrnd hr, hcount1, hany1]
  cases hnt : numTruthy e.confidence <;> simp

/-- C1 (amended): a bull/bear complete event yields exactly one message for
its (speaker, round) only when the state held no finalized message for that
key: the message count for the key grows by one exactly when the truthiness
keyed open-message lookup misses, so a second identical complete event
overwrites (count stays one) when the event's confidence is absent or 0 and
appends a second message (count two) when the confidence is truthy. -/
theorem complete_event_key_count :
    (∀ (ss : SessionState) (e : AgentMessage) (r : Nat),
        e.type = MType.bull_complete → e.round = some r → r ≠ 0 →
        keyCount MType.bull r (applyEvent ss e).state.messages
          = keyCount MType.bull r ss.state.messages
            + (if ss.state.messages.any (openDebater MType.bull r) = true
                then 0 else 1))
    ∧ (∀ (ss : SessionState) (e : AgentMessage) (r : Nat),
        e.type = MType.bear_complete → e.round = some r → r ≠ 0 →
        keyCount MType.bear r (applyEvent ss e).state.messages
          = keyCount MType.bear r ss.state.messages
            + (if ss.state.messages.any (openDebater MType.bear r) = true
                then 0 else 1))
    ∧ (∀ (ss : SessionState) (e : AgentMessage) (r : Nat),
        e.type = MType.bull_complete → e.round = some r → r ≠ 0 →
        ss.state.messages.any (keyPred MType.bull r) = false →
        keyCount MType.bull r (applyEvent (applyEvent ss e) e).state.messages
          = if numTruthy e.confidence = true then 2 else 1)
    ∧ (∀ (ss : SessionState) (e : AgentMessage) (r : Nat),
        e.type = MType.bear_complete → e.round = some r → r ≠ 0 →
        ss.state.messages.any (keyPred MType.bear r) = false →
        keyCount MType.bear r (applyEvent (applyEvent ss e) e).state.messages
          = if numTruthy e.confidence = true then 2 else 1) :=
  ⟨complete_keyCount_bull, complete_keyCount_bear,
    complete_twice_keyCount_bull, complete_twice_keyCount_bear⟩

/-- C1 witness: the count law at a concrete state and complete event. -/
theorem complete_event_key_count_witness :
    keyCount MType.bull 1
        ((applyEvent (setDebating (startSession "w1" "HBAR"))
          dupCompleteEvent).state.messages)
      = keyCount MType.bull 1
          (setDebating (startSession "w1" "HBAR")).state.messages
        + (if (setDebating (startSession "w1" "HBAR")).state.messages.any
              (openDebater MType.bull 1) = true then 0 else 1) :=
  complete_event_key_count.1 _ dupCompleteEvent 1 rfl rfl (by decide)

/-- C2 (amended): a message whose finality field is truthy (nonzero
confidence for bull/bear, nonempty winner for referee) keeps its position
and value across every reducer step, and a token event whose truthiness
keyed open-message lookup misses appends a fresh open message at the end
instead of touching any existing message. -/
theorem finalized_message_immutable :
    (∀ (ss : SessionState) (e : AgentMessage) (i : Nat) (m : AgentMessage),
        ss.state.messages[i]? = some m → finalizedB m = true →
        (applyEvent ss e).state.messages[i]? = some m)
    ∧ (∀ (ss : SessionState) (e : AgentMessage), e.type = MType.bull_token →
        ss.state.messages.any
            (openDebater MType.bull
              (jsOrNat e.round ss.streaming.currentRound)) = false →
        (applyEvent ss e).state.messages
          = ss.state.messages
            ++ [tokenMsgDebater MType.bull
                (ss.streaming.bullContent ++ jsOrStr e.token "")
                (jsOrNat e.round ss.streaming.currentRound)])
    ∧ (∀ (ss : SessionState) (e : AgentMessage), e.type = MType.bear_token →
        ss.state.messages.any
            (openDebater MType.bear
              (jsOrNat e.round ss.streaming.currentRound)) = false →
        (applyEvent ss e).state.messages
          = ss.state.messages
            ++ [tokenMsgDebater MType.bear
                (ss.streaming.bearContent ++ jsOrStr e.token "")
                (jsOrNat e.round ss.streaming.currentRound)])
    ∧ (∀ (ss : SessionState) (e : AgentMessage), e.type = MType.referee_token →
        ss.state.messages.any openReferee = false →
        (applyEvent ss e).state.messages
          = ss.state.messages
            ++ [tokenMsgReferee
                (ss.streaming.refereeContent ++ jsOrStr e.token "")]) := by
  refine ⟨?_, ?_, ?_, ?_⟩
  · intro ss e i m hm hfin
    obtain ⟨ty, c, tok, cf, kp, rd, w, cs, wa, kf, hx, wx, st⟩ := e
    cases ty
    case bull_token =>
      rw [applyEvent_bull_token ss _ rfl]
      exact upsert_getElem? _ _ _ _ _ _ hm
        (finalized_not_openDebater _ _ m (Or.inl rfl) hfin)
    case bear_token =>
      rw [applyEvent_bear_token ss _ rfl]
      exact upsert_getElem? _ _ _ _ _ _ hm
        (finalized_not_openDebater _ _ m (Or.inr rfl) hfin)
    case referee_token =>
      rw [applyEvent_referee_token ss _ rfl]
      exact upsert_getElem? _ _ _ _ _ _ hm (finalized_not_openReferee m hfin)
    case bull_complete =>
      rw [applyEvent_bull_complete ss _ rfl]
      exact upsert_getElem? _ _ _ _ _ _ hm
        (finalized_not_openDebater _ _ m (Or.inl rfl) hfin)
    case bear_complete =>
      rw [applyEvent_bear_complete ss _ rfl]
      exact upsert_getElem? _ _ _ _ _ _ hm
        (finalized_not_openDebater _ _ m (Or.inr rfl) hfin)
    case referee_complete =>
      rw [applyEvent_referee_complete ss _ rfl]
      exact upsert_getElem? _ _ _ _ _ _ hm (finalized_not_openReferee m hfin)
    case error => exact getElem?_append_of_some hm
    case hedera => exact getElem?_append_of_some hm
    case system => exact getElem?_append_of_some hm
    case status =>
      simp only [applyEvent]
      split_ifs <;> exact hm
    all_goals exact hm
  · intro ss e h hno
    rw [applyEvent_bull_token ss e h]
    exact upsert_not_found _ _ _ _ hno
  · intro ss e h hno
    rw [applyEvent_bear_token ss e h]
    exact upsert_not_found _ _ _ _ hno
  · intro ss e h hno
    rw [applyEvent_referee_token ss e h]
    exact upsert_not_found _ _ _ _ hno

/-- A bull message finalized with confidence 0: its finality field is
present but falsy. -/
def zeroConfMsg : AgentMessage :=
  { type := MType.bull, content := some "x", confidence := some 0,
    round := some 1 }

/-- A state whose transcript holds only the confidence-0 message. -/
def zeroConfState : SessionState :=
  { state := { status := Status.debating,
               messages := [zeroConfMsg],
               symbol := "HBAR",
               query := "q" },
    currentAgent := none,
    streaming := initStreaming }

/-- A stray bull token for the same (bull, 1) key. -/
def strayToken : AgentMessage :=
  { type := MType.bull_token, token := some "y", round := some 1 }

/-- C2 counterexample: the message carries its confidence field (value 0),
yet a later token for the same (speaker, round) rewrites its content in
place instead of appending a new message — presence of the finality field
does not protect a message, only truthiness does. -/
theorem finalized_zero_confidence_mutated :
    zeroConfMsg.confidence = some 0
    ∧ (applyEvent zeroConfState strayToken).state.messages
        = [{ zeroConfMsg with content := some "y" }] := by
  refine ⟨rfl, ?_⟩
  decide

/-- A bull message finalized with truthy confidence 80. -/
def finalizedMsg : AgentMessage :=
  { type := MType.bull, content := some "thesis", confidence := some 80,
    round := some 1 }

/-- A state whose transcript holds only the truthy-finalized message. -/
def finalizedState : SessionState :=
  { state := { status := Status.debating,
               messages := [finalizedMsg],
               symbol := "HBAR",
               query := "q" },
    currentAgent := none,
    streaming := initStreaming }

/-- A late bull token arriving after finalization. -/
def lateToken : AgentMessage :=
  { type := MType.bull_token, token := some "late", round := some 1 }

/-- C2 witness: the truthy-finalized message survives a late token
unchanged at its position. -/
theorem finalized_message_immutable_witness :
    finalizedB finalizedMsg = true
    ∧ (applyEvent finalizedState lateToken).state.messages[0]?
        = some finalizedMsg :=
  ⟨by decide,
    finalized_message_immutable.1 finalizedState lateToken 0 finalizedMsg
      rfl (by decide)⟩

/-- C5 (amended): the referee open-message lookup is keyed only by type
referee and a falsy winner field — the event's round is ignored entirely by
both referee branches — and a newly appended referee message carries no
round field. -/
theorem referee_lookup_ignores_round :
    (∀ (ss : SessionState) (e : AgentMessage) (r' : Option Nat),
        e.type = MType.referee_token ∨ e.type = MType.referee_complete →
        applyEvent ss { e with round := r' } = applyEvent ss e)
    ∧ (∀ (ss : SessionState) (e : AgentMessage), e.type = MType.referee_token →
        ss.state.messages.any openReferee = false →
        (applyEvent ss e).state.messages
          = ss.state.messages
            ++ [tokenMsgReferee
                (ss.streaming.refereeContent ++ jsOrStr e.token "")])
    ∧ (∀ c : String, (tokenMsgReferee c).round = none) := by
  refine ⟨?_, ?_, ?_⟩
  · intro ss e r' h
    obtain ⟨ty, c, tok, cf, kp, rd, w, cs, wa, kf, hx, wx, st⟩ := e
    rcases h with h | h
    · have h' : ty = MType.referee_token := h
      subst h'; rfl
    · have h' : ty = MType.referee_complete := h
      subst h'; rfl
  · intro ss e h hno
    rw [applyEvent_referee_token ss e h]
    exact upsert_not_found _ _ _ _ hno
  · intro c
    rfl

/-- A referee token explicitly tagged with round 2. -/
def strayRefereeToken : AgentMessage :=
  { type := MType.referee_token, token := some "verdict", round := some 2 }

/-- C5 counterexample: a referee token carrying round 2 appends a referee
message with no round field at all — not the claimed round value r. -/
theorem referee_append_has_no_round :
    strayRefereeToken.round = some 2
    ∧ (applyEvent (setDebating (startSession "q" "HBAR"))
        strayRefereeToken).state.messages.map (fun m => m.round) = [none] :=
  ⟨rfl, rfl⟩

/-- C5 witness: changing the round tag of a referee token changes nothing. -/
theorem referee_lookup_ignores_round_witness :
    applyEvent (setDebating (startSession "w5" "HBAR"))
        { strayRefereeToken with round := some 9 }
      = applyEvent (setDebating (startSession "w5" "HBAR")) strayRefereeToken :=
  referee_lookup_ignores_round.1 _ strayRefereeToken (some 9) (Or.inl rfl)

/-- C7 (amended): a complete event finalizes with the event's content only
when that content is present and nonempty; an absent or empty content falls
back to the accumulated buffer text, and the speaker's buffer is cleared
afterwards in every case. -/
theorem complete_final_text :
    (∀ (ss : SessionState) (e : AgentMessage), e.type = MType.bull_complete →
        completeMsgDebater MType.bull e
            (jsOrStr e.content ss.streaming.bullContent)
            (jsOrNat e.round ss.streaming.currentRound)
          ∈ (applyEvent ss e).state.messages
        ∧ (applyEvent ss e).streaming.bullContent = "")
    ∧ (∀ (ss : SessionState) (e : AgentMessage), e.type = MType.bear_complete →
        completeMsgDebater MType.bear e
            (jsOrStr e.content ss.streaming.bearContent)
            (jsOrNat e.round ss.streaming.currentRound)
          ∈ (applyEvent ss e).state.messages
        ∧ (applyEvent ss e).streaming.bearContent = "")
    ∧ (∀ (ss : SessionState) (e : AgentMessage),
        e.type = MType.referee_complete →
        completeMsgReferee e (jsOrStr e.content ss.streaming.refereeContent)
          ∈ (applyEvent ss e).state.messages
        ∧ (applyEvent ss e).streaming.refereeContent = "")
    ∧ (∀ (c : Option String) (b s : String),
        (c = some s → s ≠ "" → jsOrStr c b = s)
        ∧ ((c = none ∨ c = some "") → jsOrStr c b = b)) := by
  refine ⟨?_, ?_, ?_, ?_⟩
  · intro ss e h
    rw [applyEvent_bull_complete ss e h]
    exact ⟨mem_upsert_const _ _ _, rfl⟩
  · intro ss e h
    rw [applyEvent_bear_complete ss e h]
    exact ⟨mem_upsert_const _ _ _, rfl⟩
  · intro ss e h
    rw [applyEvent_referee_complete ss e h]
    exact ⟨mem_upsert_const _ _ _, rfl⟩
  · intro c b s
    constructor
    · intro hc hs
      subst hc
      simp [jsOrStr, hs]
    · intro hc
      rcases hc with hc | hc <;> subst hc <;> simp [jsOrStr]

/-- A bull complete event carrying the empty string as content. -/
def emptyContentComplete : AgentMessage :=
  { type := MType.bull_complete, content := some "",
    confidence := some 70, round := some 1 }

/-- A state whose bull buffer holds accumulated text. -/
def bufferedState : SessionState :=
  { state := { status := Status.debating,
               messages := [],
               symbol := "HBAR",
               query := "q" },
    currentAgent := some Speaker.bull,
    streaming := { initStreaming with bullContent := "buf" } }

/-- C7 counterexample: the content field is present (empty string), yet the
finalized text is the buffered text, not the event's content — the source's
falsiness fallback differs from the claimed presence test. -/
theorem empty_content_falls_back_to_buffer :
    emptyContentComplete.content = some ""
    ∧ (applyEvent bufferedState emptyContentComplete).state.messages.map
        (fun m => m.content) = [some "buf"] :=
  ⟨rfl, rfl⟩

/-- C7 witness: the finalized message at a concrete state and event. -/
theorem complete_final_text_witness :
    completeMsgDebater MType.bull emptyContentComplete
        (jsOrStr emptyContentComplete.content
          bufferedState.streaming.bullContent)
        (jsOrNat emptyContentComplete.round
          bufferedState.streaming.currentRound)
      ∈ (applyEvent bufferedState emptyContentComplete).state.messages
    ∧ (applyEvent bufferedState emptyContentComplete).streaming.bullContent
        = "" :=
  complete_final_text.1 bufferedState emptyContentComplete rfl

/-- One token event applied when the open-message lookup misses: the new
open message is appended at the end and carries the grown buffer. -/
theorem token_step_new (sp : Speaker) (r : Nat) (t : String)
    (ss : SessionState) (hr : r ≠ 0)
    (hno : ss.state.messages.any (openFor sp r) = false) :
    (applyEvent ss (mkToken sp r t)).state.messages
        = ss.state.messages ++ [openMsg sp r (bufferOf ss sp ++ t)]
    ∧ bufferOf (applyEvent ss (mkToken sp r t)) sp = bufferOf ss sp ++ t := by
  cases sp
  case bull =>
    rw [applyEvent_bull_token ss _ rfl]
    dsimp only [mkToken, bufferOf]
    rw [jsOrStr_some_empty, jsOrNat_some_ne r ss.streaming.currentRound hr]
    exact ⟨upsert_not_found _ _ _ _ hno, rfl⟩
  case bear =>
    rw [applyEvent_bear_token ss _ rfl]
    dsimp only [mkToken, bufferOf]
    rw [jsOrStr_some_empty, jsOrNat_some_ne r ss.streaming.currentRound hr]
    exact ⟨upsert_not_found _ _ _ _ hno, rfl⟩
  case referee =>
    rw [applyEvent_referee_token ss _ rfl]
    dsimp only [mkToken, bufferOf]
    rw [jsOrStr_some_empty]
    exact ⟨upsert_not_found _ _ _ _ hno, rfl⟩

/-- One token event applied when the transcript ends with the run's open
message and nothing before it matches: the trailing open message and the
buffer both grow by the token, in place. -/
theorem token_step_found (sp : Speaker) (r : Nat) (t : String)
    (ss : SessionState) (orig : List AgentMessage) (c : String) (hr : r ≠ 0)
    (hmsg : ss.state.messages = orig ++ [openMsg sp r c])
    (horig : orig.any (openFor sp r) = false)
    (hbuf : bufferOf ss sp = c) :
    (applyEvent ss (mkToken sp r t)).state.messages
        = orig ++ [openMsg sp r (c ++ t)]
    ∧ bufferOf (applyEvent ss (mkToken sp r t)) sp = c ++ t := by
  cases sp
  case bull =>
    have hb : ss.streaming.bullContent = c := hbuf
    have hopen : openDebater MType.bull r (openMsg Speaker.bull r c) = true := by
      simp [openMsg, tokenMsgDebater, openDebater, numTruthy]
    have horig' : orig.any (openDebater MType.bull r) = false := horig
    rw [applyEvent_bull_token ss _ rfl]
    dsimp only [mkToken, bufferOf]
    rw [jsOrStr_some_empty, jsOrNat_some_ne r ss.streaming.currentRound hr,
      hb, hmsg, upsert_append_found _ _ _ _ _ horig' hopen]
    exact ⟨rfl, rfl⟩
  case bear =>
    have hb : ss.streaming.bearContent = c := hbuf
    have hopen : openDebater MType.bear r (openMsg Speaker.bear r c) = true := by
      simp [openMsg, tokenMsgDebater, openDebater, numTruthy]
    have horig' : orig.any (openDebater MType.bear r) = false := horig
    rw [applyEvent_bear_token ss _ rfl]
    dsimp only [mkToken, bufferOf]
    rw [jsOrStr_some_empty, jsOrNat_some_ne r ss.streaming.currentRound hr,
      hb, hmsg, upsert_append_found _ _ _ _ _ horig' hopen]
    exact ⟨rfl, rfl⟩
  case referee =>
    have hb : ss.streaming.refereeContent = c := hbuf
    have hopen : openReferee (openMsg Speaker.referee r c) = true := by
      simp [openMsg, tokenMsgReferee, openReferee, strTruthy]
    have horig' : orig.any openReferee = false := horig
    rw [applyEvent_referee_token ss _ rfl]
    dsimp only [mkToken, bufferOf]
    rw [jsOrStr_some_empty, hb, hmsg,
      upsert_append_found _ _ _ _ _ horig' hopen]
    exact ⟨rfl, rfl⟩

/-- A run of token events keeps extending the trailing open message in
place: the transcript stays the original prefix plus that single message,
whose content folds the appends of all the run's tokens. -/
theorem tokenRun_found (sp : Speaker) (r : Nat) (hr : r ≠ 0) :
    ∀ (ts : List String) (ss : SessionState) (orig : List AgentMessage)
      (c : String),
      ss.state.messages = orig ++ [openMsg sp r c] →
      orig.any (openFor sp r) = false →
      bufferOf ss sp = c →
      (tokenRun sp r ts ss).state.messages
        = orig ++ [openMsg sp r (ts.foldl (fun a b => a ++ b) c)] := by
  intro ts
  induction ts with
  | nil =>
    intro ss orig c hmsg horig hbuf
    simpa [tokenRun] using hmsg
  | cons t ts ih =>
    intro ss orig c hmsg horig hbuf
    have hstep := token_step_found sp r t ss orig c hr hmsg horig hbuf
    have hrun : tokenRun sp r (t :: ts) ss
        = tokenRun sp r ts (applyEvent ss (mkToken sp r t)) := rfl
    rw [hrun, List.foldl_cons]
    exact ih (applyEvent ss (mkToken sp r t)) orig (c ++ t)
      hstep.1 horig hstep.2

/-- C8: a nonempty run of token events for one (speaker, round), delivered
to a state with an empty buffer for that speaker and no open message for
that key and with no intervening complete event, produces exactly one new
open message, appended once at the end and then updated in place, whose
content is the concatenation of all the run's token payloads in delivery
order. -/
theorem token_run_concat (sp : Speaker) (r : Nat) (ts : List String)
    (ss : SessionState) (hr : r ≠ 0) (hts : ts ≠ [])
    (hopen : ss.state.messages.any (openFor sp r) = false)
    (hbuf : bufferOf ss sp = "") :
    (tokenRun sp r ts ss).state.messages
      = ss.state.messages
        ++ [openMsg sp r (ts.foldl (fun a b => a ++ b) "")] := by
  cases ts with
  | nil => exact absurd rfl hts
  | cons t ts0 =>
    have hstep := token_step_new sp r t ss hr hopen
    rw [hbuf] at hstep
    have hrun : tokenRun sp r (t :: ts0) ss
        = tokenRun sp r ts0 (applyEvent ss (mkToken sp r t)) := rfl
    rw [hrun, List.foldl_cons]
    exact tokenRun_found sp r hr ts0 (applyEvent ss (mkToken sp r t))
      ss.state.messages ("" ++ t) hstep.1 hopen hstep.2

/-- C8 witness: a concrete two-token bull run at round 1. -/
theorem token_run_concat_witness :
    (tokenRun Speaker.bull 1 ["Hello", " world"]
        (setDebating (startSession "w8" "HBAR"))).state.messages
      = (setDebating (startSession "w8" "HBAR")).state.messages
        ++ [openMsg Speaker.bull 1
            (["Hello", " world"].foldl (fun a b => a ++ b) "")] :=
  token_run_concat Speaker.bull 1 ["Hello", " world"]
    (setDebating (startSession "w8" "HBAR")) (by decide) (by decide)
    (by decide) (by decide)

end AlphaDuel
